import Mathlib

/-!
A shallow embedding of the `notes` terminal note manager (files
`src/main.rs`, `src/notes/{note,short,long,view}.rs`).

Modelling conventions:
* Dates (`chrono::NaiveDate`) are modelled as `Nat` day ordinals; the
  "current date" (`chrono::Utc::now().naive_local().date()`) is an explicit
  `today : Nat` parameter threaded to every function that consults it.
* Terminal colours (the `colored` crate) are modelled by `ColoredString`,
  a text together with a `Color`; its `Display` rendering is `toStr`.
* The interactive prompt gateway (the `inquire` crate) is modelled by a
  script of `Event`s consumed left to right.  Each prompt returns a value,
  a cancellation (covering both `OperationCanceled` and
  `OperationInterrupted`, which every caller treats identically), or a
  failure (any other `InquireError`, e.g. `InvalidConfiguration` raised by
  `Select` on an empty option list).
* `View::save` writes the serialized view to the fixed path
  `./notes_view.json`; writes to that single location are modelled as a
  `List View` trace accumulated by the interpreter, in chronological order.
* The mutually recursive render loop of `view.rs` is modelled with fuel:
  `View.renderStep` performs the work of one screen (one `render_*`
  method), taking the recursive re-entry `View.renderLoop` as its
  `runLoop` argument, and `View.renderLoop` iterates it.
* `Outcome.ok` additionally carries ghost counters of completed adds and
  completed removes performed by this loop (not by nested sub-views);
  they instrument the code without affecting it.
-/

namespace NotesApp

/-- `NoteState` from `note.rs` lines 76-82. -/
inductive NoteState where
  | Pending
  | Started
  | Finished
  | Deprioritised
  deriving DecidableEq, Repr

/-- Colours used by `NoteState::render` and `format_due_at`. -/
inductive Color where
  | normal
  | red
  | yellow
  | blue
  | green
  | white
  deriving DecidableEq, Repr

/-- ANSI escape prefix emitted by the `colored` crate for each colour. -/
def Color.code : Color → String
  | .normal => ""
  | .red => "\x1b[31m"
  | .yellow => "\x1b[33m"
  | .blue => "\x1b[34m"
  | .green => "\x1b[32m"
  | .white => "\x1b[37m"

/-- A `colored::ColoredString`: a text plus the style applied to it. -/
structure ColoredString where
  text : String
  color : Color
  deriving DecidableEq, Repr

/-- `Display` for `ColoredString`: an unstyled string prints bare, a styled
one is wrapped in its colour code and the reset code. -/
def ColoredString.toStr (c : ColoredString) : String :=
  if c.color = Color.normal then c.text else c.color.code ++ c.text ++ "\x1b[0m"

/-- `NoteState::render` from `note.rs` lines 84-93. -/
def NoteState.render : NoteState → ColoredString
  | .Pending => ⟨"Pending", .yellow⟩
  | .Started => ⟨"Started", .blue⟩
  | .Finished => ⟨"Finished", .green⟩
  | .Deprioritised => ⟨"Deprioritised", .white⟩

/-- `ShortNote` from `short.rs` lines 9-15. -/
structure ShortNote where
  title : String
  created_at : Nat
  due_at : Option Nat
  state : NoteState
  deriving DecidableEq, Repr

/-- The field record of `LongNote` (`long.rs` lines 12-20), parameterized by
the element type of `sub_notes` so that `Note` can nest through it. -/
structure LongNoteF (α : Type) where
  title : String
  description : Option String
  created_at : Nat
  due_at : Option Nat
  sub_notes : Option (List α)
  state : NoteState
  deriving Repr

/-- `Note` from `note.rs` lines 10-14. -/
inductive Note where
  | Short : ShortNote → Note
  | Long : LongNoteF Note → Note

/-- `LongNote` from `long.rs` lines 12-20. -/
abbrev LongNote := LongNoteF Note

/-- `ViewState` from `view.rs` lines 14-23. -/
inductive ViewState where
  | Add
  | View
  | Tree
  | Main
  | Remove
  | Exit
  | Update (index : Nat)
  deriving DecidableEq, Repr

/-- `View` from `view.rs` lines 39-44. -/
structure View where
  name : String
  notes : List Note
  state : ViewState

/-- One user interaction consumed by a prompt of the prompt gateway. -/
inductive Event where
  | choose (n : Nat)
  | text (s : String)
  | confirm (b : Bool)
  | date (d : Nat)
  | cancel
  | interrupt
  | errored
  deriving DecidableEq, Repr

/-- The scripted sequence of user interactions. -/
abbrev Script := List Event

/-- Result of one prompt (or of a prompt sequence such as `Note::new`):
a value, a cancellation (`OperationCanceled`/`OperationInterrupted`), or
any other `InquireError`. -/
inductive PRes (α : Type) where
  | ok (a : α) (s : Script)
  | cancelled (s : Script)
  | failed

/-- `inquire::Text::prompt` (also `Editor::prompt`). -/
def textPrompt : Script → PRes String
  | .text str :: s => .ok str s
  | .cancel :: s => .cancelled s
  | .interrupt :: s => .cancelled s
  | _ => .failed

/-- `inquire::Confirm::prompt`. -/
def confirmPrompt : Script → PRes Bool
  | .confirm b :: s => .ok b s
  | .cancel :: s => .cancelled s
  | .interrupt :: s => .cancelled s
  | _ => .failed

/-- `inquire::DateSelect::prompt`. -/
def datePrompt : Script → PRes Nat
  | .date d :: s => .ok d s
  | .cancel :: s => .cancelled s
  | .interrupt :: s => .cancelled s
  | _ => .failed

/-- `inquire::Select::prompt` over `options`: on an empty option list it
fails with `InvalidConfiguration` before any interaction; otherwise the
user picks one of the offered options (index `n`) or cancels. -/
def selectPrompt {α : Type} (options : List α) (s : Script) : PRes α :=
  if options.isEmpty then .failed
  else
    match s with
    | .choose n :: s' =>
      match options[n]? with
      | some a => .ok a s'
      | none => .failed
    | .cancel :: s' => .cancelled s'
    | .interrupt :: s' => .cancelled s'
    | _ => .failed

/-- `format_due_at` from `short.rs` lines 135-143 (duplicated at
`long.rs` lines 194-202): the due date printed red when strictly in the
past, unstyled otherwise. -/
def format_due_at (today : Nat) (due_at : Nat) : ColoredString :=
  if today > due_at then ⟨toString due_at, .red⟩ else ⟨toString due_at, .normal⟩

/-- `ShortNote::render` from `short.rs` lines 81-91. -/
def ShortNote.render (today : Nat) (n : ShortNote) : String :=
  let state_string := n.state.render
  let base_string := state_string.toStr ++ ": " ++ n.title ++ ": " ++ toString n.created_at
  match n.due_at with
  | some due_at => base_string ++ " due: " ++ (format_due_at today due_at).toStr
  | none => base_string

/-- `LongNote::render` from `long.rs` lines 83-93 (same shape as
`ShortNote::render`). -/
def LongNote.render (today : Nat) (n : LongNote) : String :=
  let state_string := n.state.render
  let base_string := state_string.toStr ++ ": " ++ n.title ++ ": " ++ toString n.created_at
  match n.due_at with
  | some due_at => base_string ++ " due: " ++ (format_due_at today due_at).toStr
  | none => base_string

/-- `Note::render` from `note.rs` lines 47-52. -/
def Note.render (today : Nat) : Note → String
  | .Short n => ShortNote.render today n
  | .Long n => LongNote.render today n

/-- `impl TreeItem for ShortNote`, `short.rs` lines 43-45: always childless. -/
def ShortNote.children (_ : ShortNote) : List Note := []

/-- Modelled from the spec: the `impl TreeItem for LongNote` block is not
present under `src` (only its dispatching caller in `note.rs` is); §4.2 of
the spec says "LongNote returns its `sub_notes` sequence if present, else
empty." -/
def LongNote.children (n : LongNote) : List Note :=
  match n.sub_notes with
  | some notes => notes
  | none => []

/-- `impl TreeItem for Note`, `note.rs` lines 29-34: dispatch on the tag. -/
def Note.children : Note → List Note
  | .Short n => ShortNote.children n
  | .Long n => LongNote.children n

/-- `impl TreeItem for View`, `view.rs` lines 57-59. -/
def View.children (v : View) : List Note := v.notes

/-- `impl TreeItem for View::write_self`, `view.rs` lines 49-55: a view's
tree label is its `name`. -/
def View.label (v : View) : String := v.name

/-- `View::new_from_vec` from `view.rs` lines 81-87. -/
def View.new_from_vec (name : String) (notes : List Note) : View :=
  { name := name, notes := notes, state := ViewState.Main }

/-- `View::get_notes` from `view.rs` lines 89-91. -/
def View.get_notes (v : View) : List Note := v.notes

/-- The load branch of `View::new`, `view.rs` lines 69-71: a persisted
record is taken as-is except that its `state` is forcibly reset to
`Main`. -/
def View.new_from_load (loaded_view : View) : View :=
  { loaded_view with state := ViewState.Main }

/-- `NoteType` from `note.rs` lines 62-65. -/
inductive NoteType where
  | Short
  | Long
  deriving DecidableEq, Repr

/-- `ShortNote::new_no_deadline` from `short.rs` lines 61-69. -/
def ShortNote.new_no_deadline (today : Nat) (title : String) : ShortNote :=
  { title := title, created_at := today, due_at := none, state := NoteState.Pending }

/-- `ShortNote::new_with_deadline` from `short.rs` lines 71-79. -/
def ShortNote.new_with_deadline (today : Nat) (title : String) (due_at : Nat) : ShortNote :=
  { title := title, created_at := today, due_at := some due_at, state := NoteState.Pending }

/-- `ShortNote::new` from `short.rs` lines 49-59: title prompt, due-date
confirm, optional date selection; any cancellation aborts the whole
creation. -/
def ShortNote.new (today : Nat) (s : Script) : PRes ShortNote :=
  match textPrompt s with
  | .ok title s =>
    match confirmPrompt s with
    | .ok true s =>
      match datePrompt s with
      | .ok due_at s => .ok (ShortNote.new_with_deadline today title due_at) s
      | .cancelled s => .cancelled s
      | .failed => .failed
    | .ok false s => .ok (ShortNote.new_no_deadline today title) s
    | .cancelled s => .cancelled s
    | .failed => .failed
  | .cancelled s => .cancelled s
  | .failed => .failed

/-- `LongNote::maybe_add_description` from `long.rs` lines 59-69. -/
def LongNote.maybe_add_description (s : Script) : PRes (Option String) :=
  match confirmPrompt s with
  | .ok true s =>
    match textPrompt s with
    | .ok description s => .ok (some description) s
    | .cancelled s => .cancelled s
    | .failed => .failed
  | .ok false s => .ok none s
  | .cancelled s => .cancelled s
  | .failed => .failed

/-- `LongNote::maybe_add_due_at` from `long.rs` lines 71-81. -/
def LongNote.maybe_add_due_at (s : Script) : PRes (Option Nat) :=
  match confirmPrompt s with
  | .ok true s =>
    match datePrompt s with
    | .ok due_at s => .ok (some due_at) s
    | .cancelled s => .cancelled s
    | .failed => .failed
  | .ok false s => .ok none s
  | .cancelled s => .cancelled s
  | .failed => .failed

/-- `LongNote::new` from `long.rs` lines 45-57: `created_at` is fixed at
creation time, `sub_notes` starts `None`, state starts `Pending`. -/
def LongNote.new (today : Nat) (s : Script) : PRes LongNote :=
  match textPrompt s with
  | .ok title s =>
    match LongNote.maybe_add_description s with
    | .ok description s =>
      match LongNote.maybe_add_due_at s with
      | .ok due_at s =>
        .ok { title := title, description := description, created_at := today,
              due_at := due_at, sub_notes := none, state := NoteState.Pending } s
      | .cancelled s => .cancelled s
      | .failed => .failed
    | .cancelled s => .cancelled s
    | .failed => .failed
  | .cancelled s => .cancelled s
  | .failed => .failed

/-- `Note::new` from `note.rs` lines 38-45. -/
def Note.new (today : Nat) (s : Script) : PRes Note :=
  match selectPrompt [NoteType.Short, NoteType.Long] s with
  | .ok NoteType.Short s =>
    match ShortNote.new today s with
    | .ok n s => .ok (Note.Short n) s
    | .cancelled s => .cancelled s
    | .failed => .failed
  | .ok NoteType.Long s =>
    match LongNote.new today s with
    | .ok n s => .ok (Note.Long n) s
    | .cancelled s => .cancelled s
    | .failed => .failed
  | .cancelled s => .cancelled s
  | .failed => .failed

/-- `UpdateChoice` from `short.rs` lines 17-21. -/
inductive ShortNote.UpdateChoice where
  | Title
  | Due
  | State
  deriving DecidableEq, Repr

/-- `ShortNote::update_title` from `short.rs` lines 128-132. -/
def ShortNote.update_title (n : ShortNote) (s : Script) : PRes ShortNote :=
  match textPrompt s with
  | .ok new_title s => .ok { n with title := new_title } s
  | .cancelled s => .cancelled s
  | .failed => .failed

/-- `ShortNote::update_due` from `short.rs` lines 116-126. -/
def ShortNote.update_due (n : ShortNote) (s : Script) : PRes ShortNote :=
  match confirmPrompt s with
  | .ok true s =>
    match datePrompt s with
    | .ok due_at s => .ok { n with due_at := some due_at } s
    | .cancelled s => .cancelled s
    | .failed => .failed
  | .ok false s => .ok { n with due_at := none } s
  | .cancelled s => .cancelled s
  | .failed => .failed

/-- `ShortNote::update_state` from `short.rs` lines 104-114. -/
def ShortNote.update_state (n : ShortNote) (s : Script) : PRes ShortNote :=
  match selectPrompt
      [NoteState.Pending, NoteState.Started, NoteState.Finished, NoteState.Deprioritised] s with
  | .ok choice s => .ok { n with state := choice } s
  | .cancelled s => .cancelled s
  | .failed => .failed

/-- `ShortNote::update` from `short.rs` lines 93-102. -/
def ShortNote.update (n : ShortNote) (s : Script) : PRes ShortNote :=
  match selectPrompt
      [ShortNote.UpdateChoice.Title, ShortNote.UpdateChoice.Due, ShortNote.UpdateChoice.State]
      s with
  | .ok ShortNote.UpdateChoice.Title s => n.update_title s
  | .ok ShortNote.UpdateChoice.Due s => n.update_due s
  | .ok ShortNote.UpdateChoice.State s => n.update_state s
  | .cancelled s => .cancelled s
  | .failed => .failed

/-- `UpdateChoice` from `long.rs` lines 22-29. -/
inductive LongNote.UpdateChoice where
  | Title
  | ViewDescription
  | SubNotes
  | Description
  | Due
  | State
  deriving DecidableEq, Repr

/-- `LongNote::update_title` from `long.rs` lines 116-120. -/
def LongNote.update_title (n : LongNote) (s : Script) : PRes LongNote :=
  match textPrompt s with
  | .ok title s => .ok { n with title := title } s
  | .cancelled s => .cancelled s
  | .failed => .failed

/-- `LongNote::update_description` from `long.rs` lines 122-138: an empty
editor result normalizes the description to `None`. -/
def LongNote.update_description (n : LongNote) (s : Script) : PRes LongNote :=
  match textPrompt s with
  | .ok new_description s =>
    if new_description.length = 0 then .ok { n with description := none } s
    else .ok { n with description := some new_description } s
  | .cancelled s => .cancelled s
  | .failed => .failed

/-- `LongNote::update_state` from `long.rs` lines 140-150. -/
def LongNote.update_state (n : LongNote) (s : Script) : PRes LongNote :=
  match selectPrompt
      [NoteState.Pending, NoteState.Started, NoteState.Finished, NoteState.Deprioritised] s with
  | .ok choice s => .ok { n with state := choice } s
  | .cancelled s => .cancelled s
  | .failed => .failed

/-- `LongNote::update_due` from `long.rs` lines 152-162. -/
def LongNote.update_due (n : LongNote) (s : Script) : PRes LongNote :=
  match confirmPrompt s with
  | .ok true s =>
    match datePrompt s with
    | .ok due_at s => .ok { n with due_at := some due_at } s
    | .cancelled s => .cancelled s
    | .failed => .failed
  | .ok false s => .ok { n with due_at := none } s
  | .cancelled s => .cancelled s
  | .failed => .failed

/-- `LongNote::view_description` from `long.rs` lines 164-172: prints only,
never prompts, never mutates. -/
def LongNote.view_description (n : LongNote) (s : Script) : PRes LongNote :=
  .ok n s

/-- Result of running a view's render loop (`View::render` and the methods
it dispatches to).  `ok` carries the final view, the remaining script, the
chronological trace of saves to the fixed storage location, and ghost
counters of completed adds / completed removes performed by this loop. -/
inductive Outcome where
  | ok (v : View) (s : Script) (w : List View) (adds removes : Nat)
  | fatal (w : List View)
  | panicked (w : List View)
  | outOfFuel

/-- Result of one screen of the render loop: `cont` mirrors a tail call
back into `View::render` (via `to_menu` or a direct `self.render()`),
`stop` a return of `Ok(())` that ends the loop. -/
inductive StepRes where
  | cont (v : View) (s : Script) (w : List View) (da dr : Nat)
  | stop (v : View) (s : Script) (w : List View)
  | fatal (w : List View)
  | panicked (w : List View)
  | outOfFuel

/-- Result of a note-update operation (`Note::update` and the per-variant
updates): the updated value, or a cancellation (which leaves the original
value in place — no sub-operation of `update` mutates before its first
possible cancellation point), or a propagated fatal error / panic. -/
inductive UpdRes (α : Type) where
  | ok (a : α) (s : Script) (w : List View)
  | cancelled (s : Script)
  | fatal (w : List View)
  | panicked (w : List View)
  | outOfFuel

/-- Lift a prompt-sequence result into an update result: a non-cancellation
prompt error is fatal for the enclosing render loop. -/
def UpdRes.ofPRes {α : Type} : PRes α → UpdRes α
  | .ok a s => .ok a s []
  | .cancelled s => .cancelled s
  | .failed => .fatal []

/-- `LongNote::update_sub_notes` from `long.rs` lines 174-191: clone
`sub_notes` (or empty) into a transient `View`, run that view's full
render loop (`runLoop`), then write the resulting notes back, normalizing
an empty result to `None`.  The transient view is named after the parent
note (`view.rs`'s `View::new_from_vec` takes the name first; the spec's
§4.3 says the sub-view is "named to reflect the parent note"). -/
def LongNote.update_sub_notes (runLoop : View → Script → Outcome)
    (n : LongNote) (s : Script) : UpdRes LongNote :=
  let notes :=
    match n.sub_notes with
    | some notes => notes
    | none => []
  let view := View.new_from_vec n.title notes
  match runLoop view s with
  | .ok view' s' w _ _ =>
    let new_notes := view'.get_notes
    if new_notes.length > 0 then .ok { n with sub_notes := some new_notes } s' w
    else .ok { n with sub_notes := none } s' w
  | .fatal w => .fatal w
  | .panicked w => .panicked w
  | .outOfFuel => .outOfFuel

/-- `LongNote::update` from `long.rs` lines 95-114: choice menu in source
order, then dispatch. -/
def LongNote.update (runLoop : View → Script → Outcome)
    (n : LongNote) (s : Script) : UpdRes LongNote :=
  match selectPrompt
      [LongNote.UpdateChoice.Title, LongNote.UpdateChoice.ViewDescription,
       LongNote.UpdateChoice.Description, LongNote.UpdateChoice.Due,
       LongNote.UpdateChoice.State, LongNote.UpdateChoice.SubNotes] s with
  | .ok LongNote.UpdateChoice.Title s => UpdRes.ofPRes (n.update_title s)
  | .ok LongNote.UpdateChoice.Due s => UpdRes.ofPRes (n.update_due s)
  | .ok LongNote.UpdateChoice.State s => UpdRes.ofPRes (n.update_state s)
  | .ok LongNote.UpdateChoice.Description s => UpdRes.ofPRes (n.update_description s)
  | .ok LongNote.UpdateChoice.ViewDescription s => UpdRes.ofPRes (n.view_description s)
  | .ok LongNote.UpdateChoice.SubNotes s => LongNote.update_sub_notes runLoop n s
  | .cancelled s => .cancelled s
  | .failed => .fatal []

/-- `Note::update` from `note.rs` lines 54-59. -/
def Note.update (runLoop : View → Script → Outcome)
    (n : Note) (s : Script) : UpdRes Note :=
  match n with
  | .Short sn =>
    match ShortNote.update sn s with
    | .ok sn' s' => .ok (Note.Short sn') s' []
    | .cancelled s' => .cancelled s'
    | .failed => .fatal []
  | .Long ln =>
    match LongNote.update runLoop ln s with
    | .ok ln' s' w => .ok (Note.Long ln') s' w
    | .cancelled s' => .cancelled s'
    | .fatal w => .fatal w
    | .panicked w => .panicked w
    | .outOfFuel => .outOfFuel

/-- The option list built by `View::render_main`, `view.rs` lines 120-127:
`View`/`Tree` only when there are notes, then always `Add`, `Remove`,
`Exit`. -/
def mainOptions (notes : List Note) : List ViewState :=
  (if notes.length > 0 then [ViewState.View, ViewState.Tree] else []) ++
    [ViewState.Add, ViewState.Remove, ViewState.Exit]

/-- One screen of `View::render` (`view.rs` lines 104-222) with the
recursive re-entry into `View::render` abstracted as `runLoop` (used only
by `render_update_note`'s call to `Note::update`, which may recurse into a
sub-view's loop).

* `Main` (`render_main`, 119-139): select an action; on success adopt it
  as the new state and continue; on cancellation return `Ok(())` without
  changing anything; otherwise bail.
* `Add` (`render_add_note`, 141-152): run `Note::new`; push on success,
  swallow cancellation, bail otherwise; then `to_menu`.
* `View` (`render_view_notes`, 154-176): select among rendered labels; on
  success `position` the chosen label (`unwrap` panics if absent) and
  continue in `Update(index)`; cancellation goes `to_menu`; else bail.
* `Remove` (`render_remove_note`, 178-199): select among rendered labels;
  on success remove at the found position; cancellation is swallowed;
  else bail; then `to_menu`.
* `Update(index)` (`render_update_note`, 201-212): `get_mut(index)`
  (`unwrap` panics if out of range), run the note's update, swallow
  cancellation, bail on other errors; then `to_menu`.
* `Tree` (`render_tree`, 214-217): print the tree, then `to_menu`.
* `Exit` (104-117): `self.save()` — a write of this very view to the
  fixed location — then return `Ok(())`. -/
def View.renderStep (runLoop : View → Script → Outcome) (today : Nat)
    (v : View) (s : Script) : StepRes :=
  match v.state with
  | .Main =>
    match selectPrompt (mainOptions v.notes) s with
    | .ok action s' => .cont { v with state := action } s' [] 0 0
    | .cancelled s' => .stop v s' []
    | .failed => .fatal []
  | .Add =>
    match Note.new today s with
    | .ok note s' => .cont { v with notes := v.notes ++ [note], state := ViewState.Main } s' [] 1 0
    | .cancelled s' => .cont { v with state := ViewState.Main } s' [] 0 0
    | .failed => .fatal []
  | .View =>
    let render_context := v.notes.map (Note.render today)
    match selectPrompt render_context s with
    | .ok choice_str s' =>
      match render_context.findIdx? (fun t => t == choice_str) with
      | some index => .cont { v with state := ViewState.Update index } s' [] 0 0
      | none => .panicked []
    | .cancelled s' => .cont { v with state := ViewState.Main } s' [] 0 0
    | .failed => .fatal []
  | .Remove =>
    let render_context := v.notes.map (Note.render today)
    match selectPrompt render_context s with
    | .ok choice_str s' =>
      match render_context.findIdx? (fun t => t == choice_str) with
      | some index =>
        .cont { v with notes := v.notes.eraseIdx index, state := ViewState.Main } s' [] 0 1
      | none => .panicked []
    | .cancelled s' => .cont { v with state := ViewState.Main } s' [] 0 0
    | .failed => .fatal []
  | .Update index =>
    match v.notes[index]? with
    | none => .panicked []
    | some note =>
      match Note.update runLoop note s with
      | .ok note' s' w =>
        .cont { v with notes := v.notes.set index note', state := ViewState.Main } s' w 0 0
      | .cancelled s' => .cont { v with state := ViewState.Main } s' [] 0 0
      | .fatal w => .fatal w
      | .panicked w => .panicked w
      | .outOfFuel => .outOfFuel
  | .Tree => .cont { v with state := ViewState.Main } s [] 0 0
  | .Exit => .stop v s [v]

/-- The render loop: iterate `View.renderStep`, accumulating the write
trace and the ghost add/remove counters; the fuel bounds the number of
screens visited (the Rust loop is unbounded mutual recursion). -/
def View.renderLoop (today : Nat) : Nat → View → Script → Outcome
  | 0, _, _ => .outOfFuel
  | fuel + 1, v, s =>
    match View.renderStep (fun v' s' => View.renderLoop today fuel v' s') today v s with
    | .cont v' s' w da dr =>
      match View.renderLoop today fuel v' s' with
      | .ok v'' s'' w' a r => .ok v'' s'' (w ++ w') (da + a) (dr + r)
      | .fatal w' => .fatal (w ++ w')
      | .panicked w' => .panicked (w ++ w')
      | .outOfFuel => .outOfFuel
    | .stop v' s' w => .ok v' s' w 0 0
    | .fatal w => .fatal w
    | .panicked w => .panicked w
    | .outOfFuel => .outOfFuel

/-- Whether a loop outcome is the model's `unwrap` panic. -/
def Outcome.isPanic : Outcome → Bool
  | .panicked _ => true
  | _ => false

/-- Whether a step result is the model's `unwrap` panic. -/
def StepRes.isPanic : StepRes → Bool
  | .panicked _ => true
  | _ => false

/-- Whether an update result is the model's `unwrap` panic. -/
def UpdRes.isPanic {α : Type} : UpdRes α → Bool
  | .panicked _ => true
  | _ => false

/-- `Note`'s creation date, per variant. -/
def Note.created_at : Note → Nat
  | .Short n => n.created_at
  | .Long n => n.created_at

/-- The index-validity invariant of a view: whenever the state is
`Update i`, the index `i` is a valid position into the current notes. -/
def stateOK (v : View) : Prop :=
  ∀ i, v.state = ViewState.Update i → i < v.notes.length

/-- A concrete sample short note, used in concrete evaluations. -/
def sampleShort : ShortNote :=
  { title := "s", created_at := 0, due_at := none, state := NoteState.Pending }

/-- A concrete sample long note holding one sub-note. -/
def sampleLong : LongNote :=
  { title := "L", description := none, created_at := 0, due_at := none,
    sub_notes := some [Note.Short sampleShort], state := NoteState.Pending }

/-- A concrete top-level view holding the sample long note. -/
def sampleTop : View :=
  { name := "top", notes := [Note.Long sampleLong], state := ViewState.Main }

/-- A concrete interaction script: from the main menu, enter `View`,
select the (only) note, choose "View and Update sub Notes", exit the
sub-note view, then exit the top-level view. -/
def sampleScript : Script :=
  [Event.choose 0, Event.choose 0, Event.choose 5, Event.choose 4, Event.choose 4]

/-! ## Helper lemmas -/

/-- A successful selection always returns one of the offered options. -/
theorem selectPrompt_ok_mem {α : Type} {options : List α} {s s' : Script} {a : α}
    (h : selectPrompt options s = .ok a s') : a ∈ options := by
  unfold selectPrompt at h
  split at h
  · exact absurd h (by simp)
  · split at h
    case _ n s₁ =>
      split at h
      case _ x heq =>
        cases h
        obtain ⟨hlt, rfl⟩ := List.getElem?_eq_some_iff.mp heq
        exact List.getElem_mem hlt
      case _ => exact absurd h (by simp)
    case _ => exact absurd h (by simp)
    case _ => exact absurd h (by simp)
    case _ => exact absurd h (by simp)

/-- A string present in a list is found by `findIdx?` with `==`. -/
theorem findIdx_beq_isSome {l : List String} {a : String} (h : a ∈ l) :
    (l.findIdx? (fun t => t == a)).isSome = true := by
  cases heq : l.findIdx? (fun t => t == a) with
  | some i => rfl
  | none =>
    rw [List.findIdx?_eq_none_iff] at heq
    have := heq a h
    simp at this

/-- `findIdx?` only returns valid indices. -/
theorem findIdx_some_lt {α : Type} {l : List α} {p : α → Bool} {i : Nat}
    (h : l.findIdx? p = some i) : i < l.length := by
  rw [List.findIdx?_eq_some_iff_getElem] at h
  obtain ⟨hlt, -⟩ := h
  exact hlt

/-- A freshly constructed view (state `Main`) satisfies the invariant. -/
theorem stateOK_main {name : String} {notes : List Note} :
    stateOK ⟨name, notes, ViewState.Main⟩ := by
  intro i hi
  simp at hi

/-! ## Claim theorems -/

/-- C1 (status: code_bug). The claim — only the top-level collection is
ever written to the fixed storage location — is violated by the code: at
the sample input, entering the sample long note's "View and Update sub
Notes" operation and exiting the transient sub-note view causes
`View::render`'s `Exit` arm to call `save()` on the sub-view, so the
write trace contains the sub-view record (name `"L"`, notes = the
sub-notes) before the final top-level write, and that record's collection
differs from the top-level collection. -/
theorem c1_sub_view_saved_to_storage :
    View.renderLoop 0 12 sampleTop sampleScript =
      Outcome.ok ⟨"top", [Note.Long sampleLong], ViewState.Exit⟩ []
        [⟨"L", [Note.Short sampleShort], ViewState.Exit⟩,
         ⟨"top", [Note.Long sampleLong], ViewState.Exit⟩] 0 0 ∧
    (⟨"L", [Note.Short sampleShort], ViewState.Exit⟩ : View).notes ≠ sampleTop.notes := by
  refine ⟨rfl, ?_⟩
  intro h
  simp [sampleTop] at h

/-- C5. Loading a persisted view record yields a view whose state is
forcibly `Main`, with `name` and `notes` taken from the record
unchanged. -/
theorem c5_load_resets_state_to_main (r : View) :
    (View.new_from_load r).state = ViewState.Main ∧
    (View.new_from_load r).name = r.name ∧
    (View.new_from_load r).notes = r.notes :=
  ⟨rfl, rfl, rfl⟩

/-- C6. Both note variants render as
`"<state-label>: <title>: <created_at>"` with `" due: <due_at>"` appended
exactly when a due date exists, and the due-date portion is painted red
exactly when the due date is strictly before the current date, unstyled
otherwise (its text being the date itself). -/
theorem c6_render_format (today : Nat) (sn : ShortNote) (ln : LongNote) (d : Nat) :
    ShortNote.render today sn =
      (match sn.due_at with
        | some due =>
          (NoteState.render sn.state).toStr ++ ": " ++ sn.title ++ ": " ++
            toString sn.created_at ++ " due: " ++ (format_due_at today due).toStr
        | none =>
          (NoteState.render sn.state).toStr ++ ": " ++ sn.title ++ ": " ++
            toString sn.created_at) ∧
    LongNote.render today ln =
      (match ln.due_at with
        | some due =>
          (NoteState.render ln.state).toStr ++ ": " ++ ln.title ++ ": " ++
            toString ln.created_at ++ " due: " ++ (format_due_at today due).toStr
        | none =>
          (NoteState.render ln.state).toStr ++ ": " ++ ln.title ++ ": " ++
            toString ln.created_at) ∧
    format_due_at today d = ⟨toString d, if d < today then Color.red else Color.normal⟩ ∧
    ((format_due_at today d).color = Color.red ↔ d < today) := by
  refine ⟨?_, ?_, ?_, ?_⟩
  · obtain ⟨t, c, due, st⟩ := sn
    cases due <;> rfl
  · obtain ⟨t, desc, c, due, sub, st⟩ := ln
    cases due <;> rfl
  · unfold format_due_at
    split <;> simp_all [Nat.lt_iff_add_one_le]
  · unfold format_due_at
    split
    case _ h => simp [h]
    case _ h => simp; omega

/-- C7. The tree-item capability: `ShortNote` is childless, `LongNote`
exposes its `sub_notes` when present and none otherwise, `Note`
dispatches to its variant, and `View` exposes its `name` as label and its
`notes` as children. -/
theorem c7_tree_item_children (sn : ShortNote) (ln : LongNote) (l : List Note) (v : View) :
    ShortNote.children sn = [] ∧
    LongNote.children { ln with sub_notes := some l } = l ∧
    LongNote.children { ln with sub_notes := none } = [] ∧
    Note.children (Note.Short sn) = ShortNote.children sn ∧
    Note.children (Note.Long ln) = LongNote.children ln ∧
    View.children v = v.notes ∧
    View.label v = v.name :=
  ⟨rfl, rfl, rfl, rfl, rfl, rfl, rfl⟩

/-- C8. Cancelling (or interrupting) the prompt at the Main screen makes
the render call return successfully, with both the view's state and its
notes unchanged, and nothing written. -/
theorem c8_main_cancel_is_not_an_error (today fuel : Nat) (name : String)
    (notes : List Note) (rest : Script) :
    View.renderLoop today (fuel + 1) ⟨name, notes, ViewState.Main⟩ (Event.cancel :: rest) =
      Outcome.ok ⟨name, notes, ViewState.Main⟩ rest [] 0 0 ∧
    View.renderLoop today (fuel + 1) ⟨name, notes, ViewState.Main⟩ (Event.interrupt :: rest) =
      Outcome.ok ⟨name, notes, ViewState.Main⟩ rest [] 0 0 := by
  constructor <;>
  · rw [View.renderLoop]
    simp only [View.renderStep, selectPrompt, mainOptions]
    split <;> simp_all

/-- C10. With an empty notes sequence the Main menu still offers `Remove`
(the full option list being `[Add, Remove, Exit]`), and choosing it makes
`render_remove_note` run a selection over an empty label list, which
fails with a non-cancellation error (`InvalidConfiguration`) that aborts
the render loop as fatal instead of returning to Main. -/
theorem c10_remove_on_empty_is_fatal (today fuel : Nat) (name : String) (rest : Script) :
    mainOptions [] = [ViewState.Add, ViewState.Remove, ViewState.Exit] ∧
    View.renderLoop today (fuel + 2) ⟨name, [], ViewState.Main⟩ (Event.choose 1 :: rest) =
      Outcome.fatal [] := by
  refine ⟨rfl, ?_⟩
  rw [View.renderLoop]
  simp only [View.renderStep, mainOptions, selectPrompt]
  norm_num
  rw [View.renderLoop]
  simp [View.renderStep, selectPrompt]

/-- C2. After `update_sub_notes` returns successfully, `sub_notes` is
`Some` of the transient sub-view's final note sequence when that sequence
is non-empty and `None` when it is empty; in particular an empty
collection is never stored as `Some` of an empty sequence. -/
theorem c2_sub_notes_normalized (runLoop : View → Script → Outcome) (n : LongNote)
    (s s' : Script) (view' : View) (w : List View) (a r : Nat)
    (h : runLoop
        (View.new_from_vec n.title
          (match n.sub_notes with | some notes => notes | none => []))
        s = Outcome.ok view' s' w a r) :
    ∃ n', LongNote.update_sub_notes runLoop n s = UpdRes.ok n' s' w ∧
      (view'.notes ≠ [] → n'.sub_notes = some view'.notes) ∧
      (view'.notes = [] → n'.sub_notes = none) ∧
      (n'.sub_notes = none ↔ view'.notes = []) ∧
      n'.sub_notes ≠ some [] := by
  unfold LongNote.update_sub_notes
  simp only [View.get_notes, h]
  by_cases hnil : view'.notes = []
  · refine ⟨{ n with sub_notes := none }, ?_, ?_, ?_, ?_, ?_⟩
    · simp [hnil]
    · intro hne; exact absurd hnil hne
    · intro _; rfl
    · simp [hnil]
    · simp
  · have hpos : view'.notes.length > 0 := List.length_pos.mpr hnil
    refine ⟨{ n with sub_notes := some view'.notes }, ?_, ?_, ?_, ?_, ?_⟩
    · simp [hpos]
    · intro _; rfl
    · intro hcon; exact absurd hcon hnil
    · simp [hnil]
    · simp [hnil]

/-- Witness for C2: a sub-note editor session that is cancelled at its
main menu leaves the one sub-note in place as `Some` of a non-empty
sequence. -/
theorem c2_sub_notes_normalized_witness :
    ∃ n', LongNote.update_sub_notes (fun v s => View.renderLoop 0 2 v s) sampleLong
        [Event.cancel] = UpdRes.ok n' [] [] ∧
      ((⟨"L", [Note.Short sampleShort], ViewState.Main⟩ : View).notes ≠ [] →
        n'.sub_notes = some (⟨"L", [Note.Short sampleShort], ViewState.Main⟩ : View).notes) ∧
      ((⟨"L", [Note.Short sampleShort], ViewState.Main⟩ : View).notes = [] →
        n'.sub_notes = none) ∧
      (n'.sub_notes = none ↔
        (⟨"L", [Note.Short sampleShort], ViewState.Main⟩ : View).notes = []) ∧
      n'.sub_notes ≠ some [] :=
  c2_sub_notes_normalized (fun v s => View.renderLoop 0 2 v s) sampleLong
    [Event.cancel] []
    ⟨"L", [Note.Short sampleShort], ViewState.Main⟩ [] 0 0 rfl

/-- A successful `ShortNote::update` leaves `created_at` unchanged. -/
theorem short_update_created {n n' : ShortNote} {s s' : Script}
    (h : ShortNote.update n s = PRes.ok n' s') : n'.created_at = n.created_at := by
  unfold ShortNote.update ShortNote.update_title ShortNote.update_due
    ShortNote.update_state at h
  repeat' split at h
  all_goals first
    | (cases h; rfl)
    | exact (PRes.noConfusion h)

/-- A successful prompt-lifted update result comes from a successful
prompt result. -/
theorem UpdRes.ofPRes_ok {α : Type} {p : PRes α} {a : α} {s' : Script} {w : List View}
    (h : UpdRes.ofPRes p = UpdRes.ok a s' w) : p = PRes.ok a s' := by
  unfold UpdRes.ofPRes at h
  split at h
  all_goals first
    | (cases h; rfl)
    | exact (UpdRes.noConfusion h)

/-- `LongNote::update_title` leaves `created_at` unchanged. -/
theorem LongNote.update_title_created {n n' : LongNote} {s s' : Script}
    (h : LongNote.update_title n s = PRes.ok n' s') : n'.created_at = n.created_at := by
  unfold LongNote.update_title at h
  repeat' split at h
  all_goals first
    | (cases h; rfl)
    | exact (PRes.noConfusion h)

/-- `LongNote::update_due` leaves `created_at` unchanged. -/
theorem LongNote.update_due_created {n n' : LongNote} {s s' : Script}
    (h : LongNote.update_due n s = PRes.ok n' s') : n'.created_at = n.created_at := by
  unfold LongNote.update_due at h
  repeat' split at h
  all_goals first
    | (cases h; rfl)
    | exact (PRes.noConfusion h)

/-- `LongNote::update_state` leaves `created_at` unchanged. -/
theorem LongNote.update_state_created {n n' : LongNote} {s s' : Script}
    (h : LongNote.update_state n s = PRes.ok n' s') : n'.created_at = n.created_at := by
  unfold LongNote.update_state at h
  repeat' split at h
  all_goals first
    | (cases h; rfl)
    | exact (PRes.noConfusion h)

/-- `LongNote::update_description` leaves `created_at` unchanged. -/
theorem LongNote.update_description_created {n n' : LongNote} {s s' : Script}
    (h : LongNote.update_description n s = PRes.ok n' s') : n'.created_at = n.created_at := by
  unfold LongNote.update_description at h
  repeat' split at h
  all_goals first
    | (cases h; rfl)
    | exact (PRes.noConfusion h)

/-- `LongNote::view_description` leaves `created_at` unchanged. -/
theorem LongNote.view_description_created {n n' : LongNote} {s s' : Script}
    (h : LongNote.view_description n s = PRes.ok n' s') : n'.created_at = n.created_at := by
  unfold LongNote.view_description at h
  cases h
  rfl

/-- A successful `LongNote::update_sub_notes` leaves `created_at`
unchanged. -/
theorem LongNote.update_sub_notes_created {runLoop : View → Script → Outcome}
    {n n' : LongNote} {s s' : Script} {w : List View}
    (h : LongNote.update_sub_notes runLoop n s = UpdRes.ok n' s' w) :
    n'.created_at = n.created_at := by
  unfold LongNote.update_sub_notes at h
  dsimp only at h
  repeat' split at h
  all_goals first
    | (cases h; rfl)
    | exact (UpdRes.noConfusion h)

/-- A successful `LongNote::update` leaves `created_at` unchanged. -/
theorem long_update_created {runLoop : View → Script → Outcome}
    {n n' : LongNote} {s s' : Script} {w : List View}
    (h : LongNote.update runLoop n s = UpdRes.ok n' s' w) :
    n'.created_at = n.created_at := by
  unfold LongNote.update at h
  repeat' split at h
  all_goals first
    | exact LongNote.update_title_created (UpdRes.ofPRes_ok h)
    | exact LongNote.update_due_created (UpdRes.ofPRes_ok h)
    | exact LongNote.update_state_created (UpdRes.ofPRes_ok h)
    | exact LongNote.update_description_created (UpdRes.ofPRes_ok h)
    | exact LongNote.view_description_created (UpdRes.ofPRes_ok h)
    | exact LongNote.update_sub_notes_created h
    | exact (UpdRes.noConfusion h)

/-- C9. Every successful note update — for a ShortNote a title/due/state
change, for a LongNote additionally description viewing/editing and the
sub-note editor — leaves `created_at` unchanged. -/
theorem c9_update_preserves_created_at (runLoop : View → Script → Outcome)
    (n n' : Note) (s s' : Script) (w : List View)
    (h : Note.update runLoop n s = UpdRes.ok n' s' w) :
    n'.created_at = n.created_at := by
  cases n with
  | Short sn =>
    unfold Note.update at h
    dsimp only at h
    cases hs : ShortNote.update sn s with
    | ok sn' s₁ =>
      rw [hs] at h
      cases h
      exact short_update_created hs
    | cancelled s₁ => rw [hs] at h; exact (UpdRes.noConfusion h)
    | failed => rw [hs] at h; exact (UpdRes.noConfusion h)
  | Long ln =>
    unfold Note.update at h
    dsimp only at h
    cases hl : LongNote.update runLoop ln s with
    | ok ln' s₁ w₁ =>
      rw [hl] at h
      cases h
      exact long_update_created hl
    | cancelled s₁ => rw [hl] at h; exact (UpdRes.noConfusion h)
    | fatal w₁ => rw [hl] at h; exact (UpdRes.noConfusion h)
    | panicked w₁ => rw [hl] at h; exact (UpdRes.noConfusion h)
    | outOfFuel => rw [hl] at h; exact (UpdRes.noConfusion h)

/-- `LongNote::update_sub_notes` cannot panic when the recursive loop it
enters (always on a freshly constructed, `Main`-state view) cannot. -/
theorem LongNote.update_sub_notes_noPanic {runLoop : View → Script → Outcome}
    (hrl : ∀ name notes s, (runLoop (View.new_from_vec name notes) s).isPanic = false)
    (n : LongNote) (s : Script) :
    (LongNote.update_sub_notes runLoop n s).isPanic = false := by
  unfold LongNote.update_sub_notes
  dsimp only
  cases hrun : runLoop
      (View.new_from_vec n.title
        (match n.sub_notes with | some notes => notes | none => []))
      s with
  | ok v' s' w a r =>
    dsimp only
    split <;> rfl
  | fatal w => rfl
  | panicked w =>
    have hfalse := hrl n.title
      (match n.sub_notes with | some notes => notes | none => []) s
    rw [hrun] at hfalse
    exact absurd hfalse (by simp [Outcome.isPanic])
  | outOfFuel => rfl

/-- `LongNote::update` cannot panic when the recursive loop cannot. -/
theorem long_update_noPanic {runLoop : View → Script → Outcome}
    (hrl : ∀ name notes s, (runLoop (View.new_from_vec name notes) s).isPanic = false)
    (n : LongNote) (s : Script) :
    (LongNote.update runLoop n s).isPanic = false := by
  unfold LongNote.update
  split
  all_goals first
    | exact LongNote.update_sub_notes_noPanic hrl n _
    | (unfold UpdRes.ofPRes; split <;> rfl)
    | rfl

/-- `Note::update` cannot panic when the recursive loop cannot. -/
theorem note_update_noPanic {runLoop : View → Script → Outcome}
    (hrl : ∀ name notes s, (runLoop (View.new_from_vec name notes) s).isPanic = false)
    (n : Note) (s : Script) :
    (Note.update runLoop n s).isPanic = false := by
  cases n with
  | Short sn =>
    unfold Note.update
    dsimp only
    split <;> rfl
  | Long ln =>
    unfold Note.update
    dsimp only
    cases hl : LongNote.update runLoop ln s with
    | panicked w =>
      have hfalse := long_update_noPanic hrl ln s
      rw [hl] at hfalse
      exact absurd hfalse (by simp [UpdRes.isPanic])
    | ok a s' w => rfl
    | cancelled s' => rfl
    | fatal w => rfl
    | outOfFuel => rfl

/-- A single render step from an invariant-respecting view cannot panic
(when the recursive loop cannot). -/
theorem renderStep_noPanic {runLoop : View → Script → Outcome} {today : Nat}
    (hrl : ∀ name notes s, (runLoop (View.new_from_vec name notes) s).isPanic = false)
    (v : View) (s : Script) (hv : stateOK v) :
    (View.renderStep runLoop today v s).isPanic = false := by
  obtain ⟨name, notes, st⟩ := v
  cases st with
  | Main =>
    unfold View.renderStep
    dsimp only
    split <;> rfl
  | Add =>
    unfold View.renderStep
    dsimp only
    split <;> rfl
  | View =>
    unfold View.renderStep
    dsimp only
    cases hsel : selectPrompt (notes.map (Note.render today)) s with
    | ok lbl s₁ =>
      dsimp only
      cases hidx : (notes.map (Note.render today)).findIdx? (fun t => t == lbl) with
      | some index => rfl
      | none =>
        have hmem := selectPrompt_ok_mem hsel
        have hsome := findIdx_beq_isSome hmem
        rw [hidx] at hsome
        exact absurd hsome (by simp)
    | cancelled s₁ => rfl
    | failed => rfl
  | Remove =>
    unfold View.renderStep
    dsimp only
    cases hsel : selectPrompt (notes.map (Note.render today)) s with
    | ok lbl s₁ =>
      dsimp only
      cases hidx : (notes.map (Note.render today)).findIdx? (fun t => t == lbl) with
      | some index => rfl
      | none =>
        have hmem := selectPrompt_ok_mem hsel
        have hsome := findIdx_beq_isSome hmem
        rw [hidx] at hsome
        exact absurd hsome (by simp)
    | cancelled s₁ => rfl
    | failed => rfl
  | Update index =>
    unfold View.renderStep
    dsimp only
    have hlt : index < notes.length := hv index rfl
    have hget : notes[index]? = some (notes.get ⟨index, hlt⟩) := by
      simp [List.getElem?_eq_getElem hlt]
    rw [hget]
    dsimp only
    cases hupd : Note.update runLoop (notes.get ⟨index, hlt⟩) s with
    | panicked w =>
      have hfalse := note_update_noPanic hrl (notes.get ⟨index, hlt⟩) s
      rw [hupd] at hfalse
      exact absurd hfalse (by simp [UpdRes.isPanic])
    | ok a s' w => rfl
    | cancelled s' => rfl
    | fatal w => rfl
    | outOfFuel => rfl
  | Tree =>
    unfold View.renderStep
    rfl
  | Exit =>
    unfold View.renderStep
    rfl

/-- A continuing render step preserves the index-validity invariant: in
particular the `View` screen only ever constructs `Update(index)` with
`index` a valid position into the (unchanged) notes sequence. -/
theorem renderStep_cont_stateOK {runLoop : View → Script → Outcome} {today : Nat}
    {v v' : View} {s s' : Script} {w : List View} {da dr : Nat}
    (h : View.renderStep runLoop today v s = StepRes.cont v' s' w da dr)
    (hv : stateOK v) : stateOK v' := by
  obtain ⟨name, notes, st⟩ := v
  cases st with
  | Main =>
    unfold View.renderStep at h
    dsimp only at h
    cases hsel : selectPrompt (mainOptions notes) s with
    | ok action s₁ =>
      rw [hsel] at h
      cases h
      intro i hi
      dsimp at hi
      have hmem := selectPrompt_ok_mem hsel
      rw [hi] at hmem
      by_cases hn : notes.length > 0 <;> simp [mainOptions, hn] at hmem
    | cancelled s₁ => rw [hsel] at h; exact StepRes.noConfusion h
    | failed => rw [hsel] at h; exact StepRes.noConfusion h
  | Add =>
    unfold View.renderStep at h
    dsimp only at h
    cases hnew : Note.new today s with
    | ok note s₁ =>
      rw [hnew] at h
      cases h
      intro i hi
      exact absurd hi (by simp)
    | cancelled s₁ =>
      rw [hnew] at h
      cases h
      intro i hi
      exact absurd hi (by simp)
    | failed => rw [hnew] at h; exact StepRes.noConfusion h
  | View =>
    unfold View.renderStep at h
    dsimp only at h
    cases hsel : selectPrompt (notes.map (Note.render today)) s with
    | ok lbl s₁ =>
      rw [hsel] at h
      dsimp only at h
      cases hidx : (notes.map (Note.render today)).findIdx? (fun t => t == lbl) with
      | some index =>
        rw [hidx] at h
        cases h
        intro i hi
        dsimp at hi
        cases hi
        have := findIdx_some_lt hidx
        simpa using this
      | none => rw [hidx] at h; exact StepRes.noConfusion h
    | cancelled s₁ =>
      rw [hsel] at h
      cases h
      intro i hi
      exact absurd hi (by simp)
    | failed => rw [hsel] at h; exact StepRes.noConfusion h
  | Remove =>
    unfold View.renderStep at h
    dsimp only at h
    cases hsel : selectPrompt (notes.map (Note.render today)) s with
    | ok lbl s₁ =>
      rw [hsel] at h
      dsimp only at h
      cases hidx : (notes.map (Note.render today)).findIdx? (fun t => t == lbl) with
      | some index =>
        rw [hidx] at h
        cases h
        intro i hi
        exact absurd hi (by simp)
      | none => rw [hidx] at h; exact StepRes.noConfusion h
    | cancelled s₁ =>
      rw [hsel] at h
      cases h
      intro i hi
      exact absurd hi (by simp)
    | failed => rw [hsel] at h; exact StepRes.noConfusion h
  | Update index =>
    unfold View.renderStep at h
    dsimp only at h
    cases hget : notes[index]? with
    | none => rw [hget] at h; exact StepRes.noConfusion h
    | some note =>
      rw [hget] at h
      dsimp only at h
      cases hupd : Note.update runLoop note s with
      | ok note' s₁ w₁ =>
        rw [hupd] at h
        cases h
        intro i hi
        exact absurd hi (by simp)
      | cancelled s₁ =>
        rw [hupd] at h
        cases h
        intro i hi
        exact absurd hi (by simp)
      | fatal w₁ => rw [hupd] at h; exact StepRes.noConfusion h
      | panicked w₁ => rw [hupd] at h; exact StepRes.noConfusion h
      | outOfFuel => rw [hupd] at h; exact StepRes.noConfusion h
  | Tree =>
    unfold View.renderStep at h
    cases h
    intro i hi
    exact absurd hi (by simp)
  | Exit =>
    unfold View.renderStep at h
    exact StepRes.noConfusion h

/-- The render loop never panics when started from an
invariant-respecting view. -/
theorem renderLoop_noPanic (today : Nat) :
    ∀ fuel (v : View) (s : Script), stateOK v →
      (View.renderLoop today fuel v s).isPanic = false := by
  intro fuel
  induction fuel with
  | zero =>
    intro v s hv
    rfl
  | succ f ih =>
    intro v s hv
    have hrl : ∀ name notes s',
        (View.renderLoop today f (View.new_from_vec name notes) s').isPanic = false := by
      intro name notes s'
      exact ih _ s' stateOK_main
    rw [View.renderLoop]
    cases hstep : View.renderStep (fun v' s' => View.renderLoop today f v' s') today v s with
    | cont v' s' w da dr =>
      have hok : stateOK v' := renderStep_cont_stateOK hstep hv
      dsimp only
      cases hrec : View.renderLoop today f v' s' with
      | ok v'' s'' w' a r => rfl
      | fatal w' => rfl
      | panicked w' =>
        have hfalse := ih v' s' hok
        rw [hrec] at hfalse
        exact absurd hfalse (by simp [Outcome.isPanic])
      | outOfFuel => rfl
    | stop v' s' w => rfl
    | fatal w => rfl
    | panicked w =>
      have hfalse :=
        @renderStep_noPanic (fun v' s' => View.renderLoop today f v' s') today hrl v s hv
      rw [hstep] at hfalse
      exact absurd hfalse (by simp [StepRes.isPanic])
    | outOfFuel => rfl

/-- C3. The `View` screen only ever constructs `Update(index)` with
`index` a valid position into the current notes sequence, and
consequently a render loop started at the Main screen — the state of
every freshly constructed or freshly loaded view — never reaches the
`unwrap` panic branches of `render_view_notes`, `render_remove_note` or
`render_update_note`. -/
theorem c3_update_index_valid_no_panic (today fuel : Nat) (name : String)
    (notes : List Note) (s : Script) :
    (View.renderLoop today fuel ⟨name, notes, ViewState.Main⟩ s).isPanic = false ∧
    (∀ (runLoop : View → Script → Outcome) (v v' : View) (s₁ s₁' : Script)
        (w : List View) (da dr : Nat),
      stateOK v →
      View.renderStep runLoop today v s₁ = StepRes.cont v' s₁' w da dr →
      stateOK v') :=
  ⟨renderLoop_noPanic today fuel _ s stateOK_main,
   fun _ _ _ _ _ _ _ _ hv hstep => renderStep_cont_stateOK hstep hv⟩

/-- Witness for C3: selecting the only note on the `View` screen of a
one-note view constructs `Update 0`, a valid index, and the resulting
view still satisfies the invariant. -/
theorem c3_update_index_valid_no_panic_witness :
    (View.renderLoop 0 3 ⟨"top", [Note.Long sampleLong], ViewState.Main⟩
        [Event.cancel]).isPanic = false ∧
    stateOK ⟨"top", [Note.Long sampleLong], ViewState.Update 0⟩ := by
  have h := c3_update_index_valid_no_panic 0 3 "top" [Note.Long sampleLong] [Event.cancel]
  refine ⟨h.1, ?_⟩
  exact h.2 (fun _ _ => Outcome.outOfFuel)
    ⟨"top", [Note.Long sampleLong], ViewState.View⟩
    ⟨"top", [Note.Long sampleLong], ViewState.Update 0⟩
    [Event.choose 0] [] [] 0 0
    (by intro i hi; exact absurd hi (by simp))
    (by rfl)

/-- A continuing render step changes the note count exactly by its ghost
add/remove deltas: `+1` for a completed add, `-1` for a completed remove,
`0` otherwise. -/
theorem renderStep_cont_length {runLoop : View → Script → Outcome} {today : Nat}
    {v v' : View} {s s' : Script} {w : List View} {da dr : Nat}
    (h : View.renderStep runLoop today v s = StepRes.cont v' s' w da dr) :
    v'.notes.length + dr = v.notes.length + da := by
  obtain ⟨name, notes, st⟩ := v
  cases st with
  | Main =>
    unfold View.renderStep at h
    dsimp only at h
    cases hsel : selectPrompt (mainOptions notes) s with
    | ok action s₁ => rw [hsel] at h; cases h; rfl
    | cancelled s₁ => rw [hsel] at h; exact StepRes.noConfusion h
    | failed => rw [hsel] at h; exact StepRes.noConfusion h
  | Add =>
    unfold View.renderStep at h
    dsimp only at h
    cases hnew : Note.new today s with
    | ok note s₁ =>
      rw [hnew] at h
      cases h
      simp
    | cancelled s₁ => rw [hnew] at h; cases h; rfl
    | failed => rw [hnew] at h; exact StepRes.noConfusion h
  | View =>
    unfold View.renderStep at h
    dsimp only at h
    cases hsel : selectPrompt (notes.map (Note.render today)) s with
    | ok lbl s₁ =>
      rw [hsel] at h
      dsimp only at h
      cases hidx : (notes.map (Note.render today)).findIdx? (fun t => t == lbl) with
      | some index => rw [hidx] at h; cases h; rfl
      | none => rw [hidx] at h; exact StepRes.noConfusion h
    | cancelled s₁ => rw [hsel] at h; cases h; rfl
    | failed => rw [hsel] at h; exact StepRes.noConfusion h
  | Remove =>
    unfold View.renderStep at h
    dsimp only at h
    cases hsel : selectPrompt (notes.map (Note.render today)) s with
    | ok lbl s₁ =>
      rw [hsel] at h
      dsimp only at h
      cases hidx : (notes.map (Note.render today)).findIdx? (fun t => t == lbl) with
      | some index =>
        rw [hidx] at h
        cases h
        have hlt : index < notes.length := by
          have := findIdx_some_lt hidx
          simpa using this
        simp [List.length_eraseIdx, hlt]
        omega
      | none => rw [hidx] at h; exact StepRes.noConfusion h
    | cancelled s₁ => rw [hsel] at h; cases h; rfl
    | failed => rw [hsel] at h; exact StepRes.noConfusion h
  | Update index =>
    unfold View.renderStep at h
    dsimp only at h
    cases hget : notes[index]? with
    | none => rw [hget] at h; exact StepRes.noConfusion h
    | some note =>
      rw [hget] at h
      dsimp only at h
      cases hupd : Note.update runLoop note s with
      | ok note' s₁ w₁ =>
        rw [hupd] at h
        cases h
        simp
      | cancelled s₁ => rw [hupd] at h; cases h; rfl
      | fatal w₁ => rw [hupd] at h; exact StepRes.noConfusion h
      | panicked w₁ => rw [hupd] at h; exact StepRes.noConfusion h
      | outOfFuel => rw [hupd] at h; exact StepRes.noConfusion h
  | Tree =>
    unfold View.renderStep at h
    cases h
    rfl
  | Exit =>
    unfold View.renderStep at h
    exact StepRes.noConfusion h

/-- A stopping render step (cancellation at Main, or Exit) returns the
view unchanged. -/
theorem renderStep_stop_eq {runLoop : View → Script → Outcome} {today : Nat}
    {v v' : View} {s s' : Script} {w : List View}
    (h : View.renderStep runLoop today v s = StepRes.stop v' s' w) :
    v' = v := by
  obtain ⟨name, notes, st⟩ := v
  cases st with
  | Main =>
    unfold View.renderStep at h
    dsimp only at h
    cases hsel : selectPrompt (mainOptions notes) s with
    | ok action s₁ => rw [hsel] at h; exact StepRes.noConfusion h
    | cancelled s₁ => rw [hsel] at h; cases h; rfl
    | failed => rw [hsel] at h; exact StepRes.noConfusion h
  | Add =>
    unfold View.renderStep at h
    dsimp only at h
    cases hnew : Note.new today s with
    | ok note s₁ => rw [hnew] at h; exact StepRes.noConfusion h
    | cancelled s₁ => rw [hnew] at h; exact StepRes.noConfusion h
    | failed => rw [hnew] at h; exact StepRes.noConfusion h
  | View =>
    unfold View.renderStep at h
    dsimp only at h
    cases hsel : selectPrompt (notes.map (Note.render today)) s with
    | ok lbl s₁ =>
      rw [hsel] at h
      dsimp only at h
      cases hidx : (notes.map (Note.render today)).findIdx? (fun t => t == lbl) with
      | some index => rw [hidx] at h; exact StepRes.noConfusion h
      | none => rw [hidx] at h; exact StepRes.noConfusion h
    | cancelled s₁ => rw [hsel] at h; exact StepRes.noConfusion h
    | failed => rw [hsel] at h; exact StepRes.noConfusion h
  | Remove =>
    unfold View.renderStep at h
    dsimp only at h
    cases hsel : selectPrompt (notes.map (Note.render today)) s with
    | ok lbl s₁ =>
      rw [hsel] at h
      dsimp only at h
      cases hidx : (notes.map (Note.render today)).findIdx? (fun t => t == lbl) with
      | some index => rw [hidx] at h; exact StepRes.noConfusion h
      | none => rw [hidx] at h; exact StepRes.noConfusion h
    | cancelled s₁ => rw [hsel] at h; exact StepRes.noConfusion h
    | failed => rw [hsel] at h; exact StepRes.noConfusion h
  | Update index =>
    unfold View.renderStep at h
    dsimp only at h
    cases hget : notes[index]? with
    | none => rw [hget] at h; exact StepRes.noConfusion h
    | some note =>
      rw [hget] at h
      dsimp only at h
      cases hupd : Note.update runLoop note s with
      | ok note' s₁ w₁ => rw [hupd] at h; exact StepRes.noConfusion h
      | cancelled s₁ => rw [hupd] at h; exact StepRes.noConfusion h
      | fatal w₁ => rw [hupd] at h; exact StepRes.noConfusion h
      | panicked w₁ => rw [hupd] at h; exact StepRes.noConfusion h
      | outOfFuel => rw [hupd] at h; exact StepRes.noConfusion h
  | Tree =>
    unfold View.renderStep at h
    exact StepRes.noConfusion h
  | Exit =>
    unfold View.renderStep at h
    cases h
    rfl

/-- Over any completed render loop run, the final note count equals the
initial count plus the completed adds minus the completed removes. -/
theorem renderLoop_count (today : Nat) :
    ∀ fuel (v : View) (s : Script) (v' : View) (s' : Script) (w : List View) (a r : Nat),
      View.renderLoop today fuel v s = Outcome.ok v' s' w a r →
      v'.notes.length + r = v.notes.length + a := by
  intro fuel
  induction fuel with
  | zero =>
    intro v s v' s' w a r h
    exact Outcome.noConfusion h
  | succ f ih =>
    intro v s v' s' w a r h
    rw [View.renderLoop] at h
    cases hstep : View.renderStep (fun v₁ s₁ => View.renderLoop today f v₁ s₁) today v s with
    | cont v₁ s₁ w₁ da dr =>
      rw [hstep] at h
      dsimp only at h
      cases hrec : View.renderLoop today f v₁ s₁ with
      | ok v₂ s₂ w₂ a₂ r₂ =>
        rw [hrec] at h
        cases h
        have h1 := renderStep_cont_length hstep
        have h2 := ih v₁ s₁ _ _ _ _ _ hrec
        omega
      | fatal w₂ => rw [hrec] at h; exact Outcome.noConfusion h
      | panicked w₂ => rw [hrec] at h; exact Outcome.noConfusion h
      | outOfFuel => rw [hrec] at h; exact Outcome.noConfusion h
    | stop v₁ s₁ w₁ =>
      rw [hstep] at h
      cases h
      have heq := renderStep_stop_eq hstep
      rw [heq]
    | fatal w₁ => rw [hstep] at h; exact Outcome.noConfusion h
    | panicked w₁ => rw [hstep] at h; exact Outcome.noConfusion h
    | outOfFuel => rw [hstep] at h; exact Outcome.noConfusion h

/-- C4. A completed add appends exactly one note and returns to Main; a
cancelled add leaves the notes unchanged and returns to Main; a completed
remove deletes exactly the selected position and returns to Main; a
cancelled remove leaves the notes unchanged and returns to Main; and over
any completed run of the render loop the final note count equals the
initial count plus completed adds minus completed removes. -/
theorem c4_add_remove_counting
    (today : Nat) (runLoop : View → Script → Outcome) (fuel : Nat)
    (name : String) (notes notesr : List Note)
    (sa sa' sb sb' sc sc' sd sd' sr sr' : Script)
    (n : Note) (lbl : String) (i : Nat) (v' : View) (w : List View) (a r : Nat)
    (h1 : Note.new today sa = PRes.ok n sa')
    (h2 : Note.new today sb = PRes.cancelled sb')
    (h3 : selectPrompt (notesr.map (Note.render today)) sc = PRes.ok lbl sc')
    (h3i : (notesr.map (Note.render today)).findIdx? (fun t => t == lbl) = some i)
    (h4 : selectPrompt (notesr.map (Note.render today)) sd = PRes.cancelled sd')
    (hr : View.renderLoop today fuel ⟨name, notes, ViewState.Main⟩ sr =
      Outcome.ok v' sr' w a r) :
    View.renderStep runLoop today ⟨name, notes, ViewState.Add⟩ sa =
      StepRes.cont ⟨name, notes ++ [n], ViewState.Main⟩ sa' [] 1 0 ∧
    View.renderStep runLoop today ⟨name, notes, ViewState.Add⟩ sb =
      StepRes.cont ⟨name, notes, ViewState.Main⟩ sb' [] 0 0 ∧
    View.renderStep runLoop today ⟨name, notesr, ViewState.Remove⟩ sc =
      StepRes.cont ⟨name, notesr.eraseIdx i, ViewState.Main⟩ sc' [] 0 1 ∧
    View.renderStep runLoop today ⟨name, notesr, ViewState.Remove⟩ sd =
      StepRes.cont ⟨name, notesr, ViewState.Main⟩ sd' [] 0 0 ∧
    v'.notes.length + r = notes.length + a := by
  refine ⟨?_, ?_, ?_, ?_, ?_⟩
  · unfold View.renderStep
    dsimp only
    rw [h1]
  · unfold View.renderStep
    dsimp only
    rw [h2]
  · unfold View.renderStep
    dsimp only
    rw [h3]
    dsimp only
    rw [h3i]
  · unfold View.renderStep
    dsimp only
    rw [h4]
  · exact renderLoop_count today fuel _ sr v' sr' w a r hr

/-- Witness for C4: on a view named `"t"`, a completed short-note add, a
cancelled add, a completed remove of the only note, a cancelled remove,
and a trivial completed run all behave as stated. -/
theorem c4_add_remove_counting_witness :
    View.renderStep (fun _ _ => Outcome.outOfFuel) 0 ⟨"t", [], ViewState.Add⟩
        [Event.choose 0, Event.text "t", Event.confirm false] =
      StepRes.cont ⟨"t", [Note.Short ⟨"t", 0, none, NoteState.Pending⟩], ViewState.Main⟩
        [] [] 1 0 ∧
    View.renderStep (fun _ _ => Outcome.outOfFuel) 0 ⟨"t", [], ViewState.Add⟩
        [Event.cancel] =
      StepRes.cont ⟨"t", [], ViewState.Main⟩ [] [] 0 0 ∧
    View.renderStep (fun _ _ => Outcome.outOfFuel) 0
        ⟨"t", [Note.Short sampleShort], ViewState.Remove⟩ [Event.choose 0] =
      StepRes.cont ⟨"t", [Note.Short sampleShort].eraseIdx 0, ViewState.Main⟩ [] [] 0 1 ∧
    View.renderStep (fun _ _ => Outcome.outOfFuel) 0
        ⟨"t", [Note.Short sampleShort], ViewState.Remove⟩ [Event.cancel] =
      StepRes.cont ⟨"t", [Note.Short sampleShort], ViewState.Main⟩ [] [] 0 0 ∧
    (⟨"t", [], ViewState.Main⟩ : View).notes.length + 0 = ([] : List Note).length + 0 :=
  c4_add_remove_counting 0 (fun _ _ => Outcome.outOfFuel) 1 "t" []
    [Note.Short sampleShort]
    [Event.choose 0, Event.text "t", Event.confirm false] []
    [Event.cancel] []
    [Event.choose 0] []
    [Event.cancel] []
    [Event.cancel] []
    (Note.Short ⟨"t", 0, none, NoteState.Pending⟩)
    "\x1b[33mPending\x1b[0m: s: 0" 0
    ⟨"t", [], ViewState.Main⟩ [] 0 0
    rfl rfl rfl rfl rfl rfl

/-- Witness for C9: retitling the sample short note keeps its creation
date. -/
theorem c9_update_preserves_created_at_witness :
    Note.created_at
        (Note.Short { title := "b", created_at := 0, due_at := none,
                      state := NoteState.Pending }) =
      Note.created_at (Note.Short sampleShort) :=
  c9_update_preserves_created_at (fun _ _ => Outcome.outOfFuel)
    (Note.Short sampleShort)
    (Note.Short { title := "b", created_at := 0, due_at := none, state := NoteState.Pending })
    [Event.choose 0, Event.text "b"] [] [] rfl

end NotesApp
